import Mathlib

/-!
Shallow embedding of the tuition-management backend's domain logic
(batch roster, assignment submission/grading, attendance marking,
payment creation, cascade delete), translated from the Express
controllers and Mongoose schemas of the repository, together with
theorems settling the specification's claims about them.

Conventions of the embedding:
* Mongo ObjectIds become natural numbers (`Id`).
* Dates become natural-number timestamps; the attendance duplicate
  check, which queries a whole-day range, is modelled at day
  granularity.
* A controller handler becomes a pure function returning
  `Except ErrorResponse α`; reaching `next(new ErrorResponse ...)`
  in the source corresponds to the `.error` branch, in which case no
  `save` happens, so the persistent state is unchanged.
* JavaScript `Number` fields become `Int`, JS string enums become
  inductive types where the schema constrains them.
-/

namespace Tuition

/-- Mongo ObjectIds are modelled as natural numbers. -/
abbrev Id := Nat

/-- User roles, from the user schema's role enum. -/
inductive Role
  | admin
  | teacher
  | student
deriving DecidableEq, Repr

/-- The slice of `req.user` the embedded controllers read: id and role. -/
structure User where
  id : Id
  role : Role
deriving DecidableEq, Repr

/-- `ErrorResponse(message, statusCode)` from utils/errorResponse. -/
structure ErrorResponse where
  message : String
  statusCode : Nat
deriving DecidableEq, Repr

/-- The slice of the batch schema the claims touch: teacher, the
`students` roster, the monthly `fee`, and the `maxStudents` capacity. -/
structure Batch where
  id : Id
  teacher : Id
  students : List Id
  fee : Int
  maxStudents : Nat
deriving DecidableEq, Repr

/-- `addStudentToBatch` from batchController: rejects a duplicate
enrollment with 400, rejects when `students.length >= maxStudents`
with 400, otherwise pushes the student onto the roster and saves. -/
def addStudentToBatch (batch : Batch) (studentId : Id) : Except ErrorResponse Batch :=
  if studentId ∈ batch.students then
    .error ⟨"Student already in this batch", 400⟩
  else if batch.maxStudents ≤ batch.students.length then
    .error ⟨"Batch is full", 400⟩
  else
    .ok { batch with students := batch.students ++ [studentId] }

/-- `removeStudentFromBatch` from batchController: rejects with 400 when
the student is not on the roster, otherwise filters the student out. -/
def removeStudentFromBatch (batch : Batch) (studentId : Id) : Except ErrorResponse Batch :=
  if studentId ∈ batch.students then
    .ok { batch with students := batch.students.filter (fun i => i ≠ studentId) }
  else
    .error ⟨"Student not in this batch", 400⟩

/-- One roster mutation: an add-student or remove-student call. -/
inductive BatchOp
  | add (s : Id)
  | remove (s : Id)
deriving DecidableEq, Repr

/-- Apply one roster call; a rejected call leaves the batch unchanged
(the controller returns the error before any `save`). -/
def applyBatchOp (batch : Batch) (op : BatchOp) : Batch :=
  match op with
  | .add s => ((addStudentToBatch batch s).toOption).getD batch
  | .remove s => ((removeStudentFromBatch batch s).toOption).getD batch

/-- Run a sequence of add-student / remove-student calls. -/
def runBatchOps (batch : Batch) (ops : List BatchOp) : Batch :=
  ops.foldl applyBatchOp batch

/-- Submission status enum of the assignment schema. -/
inductive SubStatus
  | submitted
  | graded
  | late
  | resubmitted
deriving DecidableEq, Repr

/-- One embedded submission subdocument of an assignment.  Files are kept
as their stored URLs. -/
structure Submission where
  student : Id
  submittedAt : Nat
  files : List String
  notes : String
  marksObtained : Option Int
  feedback : Option String
  gradedBy : Option Id
  gradedAt : Option Nat
  status : SubStatus
  resubmittedAt : Option Nat
deriving DecidableEq, Repr

/-- The slice of the assignment schema the claims touch.
`allowLateSubmission` is the flag the controller reads on the assignment
document (`assignment.allowLateSubmission`). -/
structure Assignment where
  id : Id
  batch : Id
  dueDate : Nat
  totalMarks : Int
  allowLateSubmission : Bool
  submissions : List Submission
  isActive : Bool
deriving DecidableEq, Repr

/-- Replace the first element satisfying `p` by its image under `f`,
leaving the rest unchanged: the `findIndex` / assign-at-index pattern
of the controllers. -/
def updateWhere (p : α → Bool) (f : α → α) : List α → List α
  | [] => []
  | x :: xs => if p x then f x :: xs else x :: updateWhere p f xs

/-- The submission of a given student on an assignment, if any
(`submissions.find(sub => sub.student === studentId)`). -/
def findSub (a : Assignment) (studentId : Id) : Option Submission :=
  a.submissions.find? (fun sub => sub.student == studentId)

/-- The spread `{...old, ...submission, status: resubmitted,
resubmittedAt: now}` of the resubmission path: the new submission
object carries no grading keys, so the old grading fields survive. -/
def resubmitUpd (now : Nat) (files : List String) (notes : String)
    (old : Submission) : Submission :=
  { old with
    submittedAt := now
    files := files
    notes := notes
    status := .resubmitted
    resubmittedAt := some now }

/-- The spread `{...old, marksObtained, feedback, gradedBy, gradedAt,
status: graded}` of the grading path. -/
def gradeUpd (marks : Int) (fb : String) (graderId : Id) (now : Nat)
    (old : Submission) : Submission :=
  { old with
    marksObtained := some marks
    feedback := some fb
    gradedBy := some graderId
    gradedAt := some now
    status := .graded }

/-- `submitAssignment` from assignmentController: 404 for an inactive
assignment, 403 when the caller is not on the batch roster, 400 when the
submission is late (`now > dueDate`) and the assignment does not allow
late submission; otherwise it builds a submission whose status is
`late` when past due and `submitted` otherwise, and either replaces the
caller's existing submission — spreading the new fields over the old
subdocument and then forcing status `resubmitted` and `resubmittedAt`,
so the old grading fields survive — or pushes a new one. -/
def submitAssignment (a : Assignment) (batch : Batch) (userId : Id)
    (now : Nat) (files : List String) (notes : String) :
    Except ErrorResponse Assignment :=
  if ¬ a.isActive then
    .error ⟨"Assignment not found", 404⟩
  else if userId ∉ batch.students then
    .error ⟨"You are not enrolled in this batch", 403⟩
  else if a.dueDate < now ∧ ¬ a.allowLateSubmission then
    .error ⟨"Late submissions are not allowed for this assignment", 400⟩
  else
    let newSub : Submission :=
      { student := userId
        submittedAt := now
        files := files
        notes := notes
        marksObtained := none
        feedback := none
        gradedBy := none
        gradedAt := none
        status := if a.dueDate < now then .late else .submitted
        resubmittedAt := none }
    if a.submissions.any (fun sub => sub.student == userId) then
      .ok { a with
            submissions := updateWhere (fun sub => sub.student == userId)
              (resubmitUpd now files notes) a.submissions }
    else
      .ok { a with submissions := a.submissions ++ [newSub] }

/-- `gradeSubmission` from assignmentController: 404 for an inactive
assignment, 403 unless the caller is the batch teacher or an admin,
404 when the student has no submission; otherwise it overwrites the
submission's marks, feedback, grader and graded time and forces status
`graded`.  The controller performs no comparison of `marksObtained`
against the assignment's `totalMarks` (the schema's ceiling validator
evaluates `this.totalMarks` on the submission subdocument, which has no
such field, so no write-time ceiling applies). -/
def gradeSubmission (a : Assignment) (batch : Batch) (user : User)
    (studentId : Id) (marksObtained : Int) (feedback : String) (now : Nat) :
    Except ErrorResponse Assignment :=
  if ¬ a.isActive then
    .error ⟨"Assignment not found", 404⟩
  else if batch.teacher ≠ user.id ∧ user.role ≠ .admin then
    .error ⟨"Not authorized to grade this assignment", 403⟩
  else if ¬ a.submissions.any (fun sub => sub.student == studentId) then
    .error ⟨"No submission found for student", 404⟩
  else
    .ok { a with
          submissions := updateWhere (fun sub => sub.student == studentId)
            (gradeUpd marksObtained feedback user.id now) a.submissions }

/-- The assignment state after a submit call: the saved document on
success, the untouched document when the controller returned an error. -/
def submitResult (a : Assignment) (batch : Batch) (userId : Id)
    (now : Nat) (files : List String) (notes : String) : Assignment :=
  match submitAssignment a batch userId now files notes with
  | .ok a' => a'
  | .error _ => a

/-- The assignment state after a grade call: the saved document on
success, the untouched document when the controller returned an error. -/
def gradeResult (a : Assignment) (batch : Batch) (user : User)
    (studentId : Id) (marksObtained : Int) (feedback : String) (now : Nat) : Assignment :=
  match gradeSubmission a batch user studentId marksObtained feedback now with
  | .ok a' => a'
  | .error _ => a

/-- Attendance status enum of the attendance schema. -/
inductive AttStatus
  | present
  | absent
  | late
  | excused
deriving DecidableEq, Repr

/-- One attendance record; `date` is at day granularity, matching the
controllers' whole-day duplicate query. -/
structure Attendance where
  student : Id
  batch : Id
  date : Nat
  status : AttStatus
  notes : String
  markedBy : Id
deriving DecidableEq, Repr

/-- The `(student, batch, date)` key match used by the controllers'
duplicate lookups. -/
def sameAttKey (student batchId : Id) (date : Nat) (r : Attendance) : Bool :=
  r.student == student && r.batch == batchId && r.date == date

/-- One entry of the bulk-mark request body's `attendances` array. -/
structure AttEntry where
  student : Id
  status : AttStatus
  notes : Option String
deriving DecidableEq, Repr

/-- `updateAttendance` from userController: 403 unless the caller is
the record's original marker (`markedBy`) or an admin; otherwise the
record is updated with the body's status and notes. -/
def updateAttendance (attendance : Attendance) (user : User)
    (newStatus : AttStatus) (newNotes : String) : Except ErrorResponse Attendance :=
  if attendance.markedBy ≠ user.id ∧ user.role ≠ .admin then
    .error ⟨"Not authorized to update this attendance record", 403⟩
  else
    .ok { attendance with status := newStatus, notes := newNotes }

/-- `deleteAttendance` from userController: same marker-or-admin
authorization, then the record is removed. -/
def deleteAttendance (attendance : Attendance) (user : User) :
    Except ErrorResponse Unit :=
  if attendance.markedBy ≠ user.id ∧ user.role ≠ .admin then
    .error ⟨"Not authorized to delete this attendance record", 403⟩
  else
    .ok ()

/-- The body of the per-entry loop of `markMultipleAttendances`: a
non-enrolled student appends an error message; otherwise the entry is
upserted — the existing record for `(student, batch, date)` gets the new
status, notes and `markedBy := caller`, or a fresh record is created —
and the written record is appended to the results list. -/
def processAttendance (batch : Batch) (date : Nat) (userId : Id)
    (acc : List Attendance × List Attendance × List String) (att : AttEntry) :
    List Attendance × List Attendance × List String :=
  let (records, results, errors) := acc
  if att.student ∉ batch.students then
    (records, results,
     errors ++ ["Student " ++ toString att.student ++ " is not in this batch"])
  else
    match records.find? (sameAttKey att.student batch.id date) with
    | some existing =>
        let updated : Attendance :=
          { existing with
            status := att.status
            notes := att.notes.getD ""
            markedBy := userId }
        (updateWhere (sameAttKey att.student batch.id date)
           (fun r => { r with
                       status := att.status
                       notes := att.notes.getD ""
                       markedBy := userId })
           records,
         results ++ [updated], errors)
    | none =>
        let newAtt : Attendance :=
          { student := att.student
            batch := batch.id
            date := date
            status := att.status
            notes := att.notes.getD ""
            markedBy := userId }
        (records ++ [newAtt], results ++ [newAtt], errors)

/-- The response of the bulk-mark endpoint plus the resulting record
store. -/
structure BulkMarkResult where
  success : Bool
  data : List Attendance
  errors : List String
  records : List Attendance
deriving DecidableEq, Repr

/-- `markMultipleAttendances` from userController, after its
batch-exists and teacher-or-admin guards: processes each entry in order
with `processAttendance`, then reports `success` exactly when the
collected error list is empty.  Nothing is rolled back on a per-entry
error. -/
def markMultipleAttendances (batch : Batch) (date : Nat) (userId : Id)
    (records : List Attendance) (attendances : List AttEntry) : BulkMarkResult :=
  let out := attendances.foldl (processAttendance batch date userId) (records, [], [])
  { success := out.2.2.isEmpty
    data := out.2.1
    errors := out.2.2
    records := out.1 }

/-- JavaScript `Math.round` on a nonnegative value: round half up. -/
def jsRound (q : ℚ) : ℤ := ⌊q + 1 / 2⌋

/-- One `{ status, count }` bucket of the summary aggregation. -/
structure StatusCount where
  status : AttStatus
  count : Nat
deriving DecidableEq, Repr

/-- Attendance records of one student in one batch (the aggregation's
`$match` stage). -/
def attendanceFor (records : List Attendance) (studentId batchId : Id) :
    List Attendance :=
  records.filter (fun r => r.student == studentId && r.batch == batchId)

/-- Number of matched records carrying a given status. -/
def countStatus (records : List Attendance) (s : AttStatus) : Nat :=
  (records.filter (fun r => r.status == s)).length

/-- The `$group` stage by status: one bucket per status that occurs. -/
def summarize (records : List Attendance) (studentId batchId : Id) :
    List StatusCount :=
  let matched := attendanceFor records studentId batchId
  (matched.map (fun r => r.status)).dedup.map
    (fun s => { status := s, count := countStatus matched s })

/-- The body of the attendance-summary response. -/
structure AttendanceSummary where
  summary : List StatusCount
  total : Nat
  percentage : ℤ
deriving DecidableEq, Repr

/-- The aggregation and percentage computation spelled out by the body
of `getStudentAttendanceSummary` in userController: per-status counts,
their sum as `total`, the `present` bucket (0 when missing), and
`Math.round(present / total * 100)`, or 0 when there are no records.
This computation is UNREACHABLE at runtime: the aggregation's `$match`
is built with `mongoose.Types.ObjectId`, and the module never requires
`mongoose`, so the handler throws before reaching it — see
`getStudentAttendanceSummaryCtrl` for the handler as shipped. -/
def getStudentAttendanceSummary (records : List Attendance)
    (studentId batchId : Id) : AttendanceSummary :=
  let summary := summarize records studentId batchId
  let total : Nat := (summary.map (fun c => c.count)).sum
  let present : Nat := ((summary.find? (fun c => c.status == .present)).map
    (fun c => c.count)).getD 0
  { summary := summary
    total := total
    percentage := if 0 < total then jsRound ((present : ℚ) / (total : ℚ) * 100) else 0 }

/-- `getStudentAttendanceSummary` from userController as it actually
executes: 404 when the batch does not exist, 403 when a student who is
neither the subject nor the batch teacher asks; past the guards the
handler evaluates `mongoose.Types.ObjectId(studentId)`, but `mongoose`
is never required in this module, so the evaluation throws a
ReferenceError that the async wrapper forwards to the error handler as
a 500 — the aggregation and percentage are never computed. -/
def getStudentAttendanceSummaryCtrl (batches : List Batch) (user : User)
    (studentId batchId : Id) : Except ErrorResponse AttendanceSummary :=
  match batches.find? (fun b => b.id == batchId) with
  | none => .error ⟨"Batch not found", 404⟩
  | some batch =>
    if user.role = .student ∧ user.id ≠ studentId ∧ user.id ≠ batch.teacher then
      .error ⟨"Not authorized to view this attendance summary", 403⟩
    else
      .error ⟨"mongoose is not defined", 500⟩

/-- Payment status enum of the payment schema. -/
inductive PaymentStatus
  | pending
  | completed
  | failed
  | refunded
deriving DecidableEq, Repr

/-- The payment schema's `paymentMethod` enum. `online` is not a
member. -/
def paymentMethodEnum : List String :=
  ["cash", "card", "bank_transfer", "upi", "cheque", "other"]

/-- The slice of a payment record the claims touch. -/
structure Payment where
  student : Id
  batch : Id
  amount : Int
  paymentMethod : String
  month : String
  status : PaymentStatus
  recordedBy : Id
deriving DecidableEq, Repr

/-- The create-payment request body. `amount`, `paymentMethod` and
`status` may be absent. -/
structure PaymentReq where
  student : Id
  batch : Id
  month : String
  amount : Option Int
  paymentMethod : Option String
  status : Option PaymentStatus
deriving DecidableEq, Repr

/-- The `(student, batch, month)` key match of the duplicate lookup and
of the schema's unique index. -/
def samePaymentKey (student batchId : Id) (month : String) (p : Payment) : Bool :=
  p.student == student && p.batch == batchId && p.month == month

/-- `createPayment` from the payment controller: 400 when a payment for
the same `(student, batch, month)` already exists, 400 when the student
is not on the batch roster; otherwise the amount defaults to the batch
fee when absent (or `0`, which is falsy in JavaScript), the status is
forced to `completed` for every payment method other than `"online"`,
and `Payment.create` validates the body against the schema — the
method must be present and a member of the `paymentMethod` enum, and
the amount must be nonnegative. Returns the created record and the new
payment collection. -/
def createPayment (payments : List Payment) (batchDoc : Batch) (user : User)
    (req : PaymentReq) : Except ErrorResponse (Payment × List Payment) :=
  if payments.any (samePaymentKey req.student req.batch req.month) then
    .error ⟨"Payment already recorded for this student, batch, and month", 400⟩
  else if req.student ∉ batchDoc.students then
    .error ⟨"Student is not enrolled in this batch", 400⟩
  else
    let amount : Int :=
      match req.amount with
      | none => batchDoc.fee
      | some a => if a = 0 then batchDoc.fee else a
    let status : PaymentStatus :=
      if req.paymentMethod = some "online" then req.status.getD .pending
      else .completed
    match req.paymentMethod with
    | none => .error ⟨"Please provide payment method", 400⟩
    | some m =>
      if ¬ paymentMethodEnum.contains m then
        .error ⟨"Validation Error", 400⟩
      else if amount < 0 then
        .error ⟨"Amount cannot be negative", 400⟩
      else
        let payment : Payment :=
          { student := req.student
            batch := req.batch
            amount := amount
            paymentMethod := m
            month := req.month
            status := status
            recordedBy := user.id }
        .ok (payment, payments ++ [payment])

/-- Number of payments carrying a given `(student, batch, month)` key. -/
def paymentKeyCount (payments : List Payment) (student batchId : Id)
    (month : String) : Nat :=
  (payments.filter (samePaymentKey student batchId month)).length

/-- The slice of a material record the claims touch. -/
structure Material where
  id : Id
  batch : Id
deriving DecidableEq, Repr

/-- The collections a batch delete touches. -/
structure Store where
  batches : List Batch
  attendances : List Attendance
  materials : List Material
  assignments : List Assignment
deriving DecidableEq, Repr

/-- `deleteBatch` from batchController together with the batch schema's
remove hook: 404 when the batch does not exist, 403 unless the caller
is the batch teacher or an admin; otherwise the remove hook issues a
`deleteMany` on each of the three dependent collections for this batch
id, and the batch itself is removed. -/
def deleteBatch (store : Store) (user : User) (batchId : Id) :
    Except ErrorResponse Store :=
  match store.batches.find? (fun b => b.id == batchId) with
  | none => .error ⟨"Batch not found", 404⟩
  | some batch =>
    if batch.teacher ≠ user.id ∧ user.role ≠ .admin then
      .error ⟨"Not authorized to delete this batch", 403⟩
    else
      .ok { batches := store.batches.filter (fun b => b.id ≠ batchId)
            attendances := store.attendances.filter (fun a => a.batch ≠ batchId)
            materials := store.materials.filter (fun m => m.batch ≠ batchId)
            assignments := store.assignments.filter (fun a => a.batch ≠ batchId) }

/-! Concrete documents used by witnesses and counterexamples. -/

/-- A concrete batch: teacher 1, one enrolled student 2, fee 500. -/
def exBatch : Batch :=
  { id := 0, teacher := 1, students := [2], fee := 500, maxStudents := 30 }

/-- The teacher of `exBatch`. -/
def exTeacher : User := { id := 1, role := .teacher }

/-- A concrete active assignment on `exBatch` with no submissions,
due at time 100, total marks 10, late submission disallowed. -/
def exAssignment : Assignment :=
  { id := 5, batch := 0, dueDate := 100, totalMarks := 10,
    allowLateSubmission := false, submissions := [], isActive := true }

/-- `exAssignment` after student 2 submits at time 50. -/
def exA1 : Assignment := submitResult exAssignment exBatch 2 50 ["f1"] "first"

/-- `exA1` after the teacher grades student 2 with 7 marks at time 55. -/
def exA2 : Assignment := gradeResult exA1 exBatch exTeacher 2 7 "good" 55

/-- `exA2` after student 2 submits again at time 60. -/
def exA3 : Assignment := submitResult exA2 exBatch 2 60 ["f2"] "second"

/-- Like `exAssignment` but with late submission allowed. -/
def exLateOk : Assignment :=
  { exAssignment with id := 6, allowLateSubmission := true }

/-! Lemmas about `updateWhere`, the embedded find-index-then-assign
pattern. -/

theorem mem_updateWhere_of_neg {p : α → Bool} {f : α → α} {x : α} :
    ∀ {l : List α}, x ∈ l → p x = false → x ∈ updateWhere p f l := by
  intro l hx hpx
  induction l with
  | nil => simp at hx
  | cons y ys ih =>
    rcases List.mem_cons.mp hx with rfl | hmem
    · simp [updateWhere, hpx]
    · by_cases hpy : p y = true
      · simp [updateWhere, hpy, List.mem_cons, hmem]
      · simp only [Bool.not_eq_true] at hpy
        simp only [updateWhere, hpy]
        simp [List.mem_cons, ih hmem]

theorem find?_updateWhere (p : α → Bool) (f : α → α)
    (hf : ∀ x, p x = true → p (f x) = true) :
    ∀ l : List α, (updateWhere p f l).find? p = (l.find? p).map f := by
  intro l
  induction l with
  | nil => simp [updateWhere]
  | cons y ys ih =>
    by_cases hpy : p y = true
    · simp [updateWhere, hpy, List.find?_cons_of_pos _ (hf y hpy),
        List.find?_cons_of_pos _ hpy]
    · simp only [Bool.not_eq_true] at hpy
      simp only [updateWhere, hpy, Bool.false_eq_true, if_false]
      rw [List.find?_cons_of_neg _ (by simp [hpy]),
        List.find?_cons_of_neg _ (by simp [hpy]), ih]

theorem mem_updateWhere_of_find? {p : α → Bool} {f : α → α} :
    ∀ {l : List α} {r : α}, l.find? p = some r → f r ∈ updateWhere p f l := by
  intro l
  induction l with
  | nil => intro r h; simp at h
  | cons y ys ih =>
    intro r h
    by_cases hpy : p y = true
    · rw [List.find?_cons_of_pos _ hpy] at h
      cases h
      simp [updateWhere, hpy]
    · simp only [Bool.not_eq_true] at hpy
      rw [List.find?_cons_of_neg _ (by simp [hpy])] at h
      simp only [updateWhere, hpy, if_false]
      simp [List.mem_cons, ih h]

theorem exists_mem_updateWhere {p : α → Bool} {f : α → α} {P : α → Prop}
    (hf : ∀ x, P x → P (f x)) :
    ∀ {l : List α}, (∃ x ∈ l, P x) → ∃ x ∈ updateWhere p f l, P x := by
  intro l h
  induction l with
  | nil => simp at h
  | cons y ys ih =>
    rcases h with ⟨x, hx, hPx⟩
    by_cases hpy : p y = true
    · simp only [updateWhere, hpy, if_true]
      rcases List.mem_cons.mp hx with rfl | hmem
      · exact ⟨f x, by simp, hf x hPx⟩
      · exact ⟨x, by simp [List.mem_cons, hmem], hPx⟩
    · simp only [Bool.not_eq_true] at hpy
      simp only [updateWhere, hpy, if_false]
      rcases List.mem_cons.mp hx with rfl | hmem
      · exact ⟨x, by simp, hPx⟩
      · rcases ih ⟨x, hmem, hPx⟩ with ⟨z, hz, hPz⟩
        exact ⟨z, by simp [List.mem_cons, hz], hPz⟩

/-- C1 (counterexample): starting from an assignment with no submissions,
student 2 submits (status `submitted`), the teacher grades (status
`graded`), and a second submission by the same student then succeeds and
moves the submission from `graded` to `resubmitted` — a transition the
claim asserts is unreachable. -/
theorem graded_to_resubmitted_counterexample :
    submitAssignment exAssignment exBatch 2 50 ["f1"] "first" = .ok exA1 ∧
    gradeSubmission exA1 exBatch exTeacher 2 7 "good" 55 = .ok exA2 ∧
    submitAssignment exA2 exBatch 2 60 ["f2"] "second" = .ok exA3 ∧
    exA1.submissions.map (fun s => s.status) = [SubStatus.submitted] ∧
    exA2.submissions.map (fun s => s.status) = [SubStatus.graded] ∧
    exA3.submissions.map (fun s => s.status) = [SubStatus.resubmitted] :=
  ⟨rfl, rfl, rfl, rfl, rfl, rfl⟩

/-- C1 (amended): under the submit and grade operations a submission's
status moves only along: none → `submitted` (or `late` when past due),
any existing state — including `graded` — → `resubmitted` on a second
submission by the same student, and any existing state → `graded` on a
(re-enterable) grade; submissions of other students are untouched. -/
theorem submission_status_transitions
    (a : Assignment) (b : Batch) (u : Id) (now : Nat) (files : List String)
    (nts : String) (grader : User) (stu : Id) (marks : Int) (fb : String)
    (gnow : Nat) (a' a'' : Assignment) :
    (submitAssignment a b u now files nts = .ok a' →
      ((findSub a u = none →
          ∃ s, findSub a' u = some s ∧ (s.status = .submitted ∨ s.status = .late)) ∧
       (∀ s, findSub a u = some s →
          ∃ s', findSub a' u = some s' ∧ s'.status = .resubmitted) ∧
       (∀ s ∈ a.submissions, s.student ≠ u → s ∈ a'.submissions))) ∧
    (gradeSubmission a b grader stu marks fb gnow = .ok a'' →
      ((findSub a stu).isSome ∧
       (∃ s', findSub a'' stu = some s' ∧ s'.status = .graded) ∧
       (∀ s ∈ a.submissions, s.student ≠ stu → s ∈ a''.submissions))) := by
  constructor
  · intro h
    simp only [submitAssignment] at h
    split at h
    · cases h
    split at h
    · cases h
    split at h
    · cases h
    split at h
    case isTrue hany =>
      cases h
      refine ⟨?_, ?_, ?_⟩
      · intro hnone
        rw [findSub, List.find?_eq_none] at hnone
        rcases List.any_eq_true.mp hany with ⟨x, hx, hpx⟩
        exact absurd hpx (hnone x hx)
      · intro s hs
        refine ⟨resubmitUpd now files nts s, ?_, rfl⟩
        show (updateWhere _ _ a.submissions).find? _ = _
        rw [find?_updateWhere (fun sub => sub.student == u)
          (resubmitUpd now files nts) (fun x hx => hx)]
        rw [findSub] at hs
        rw [hs]
        rfl
      · intro s hs hne
        exact mem_updateWhere_of_neg hs (by simp [hne])
    case isFalse hany =>
      cases h
      refine ⟨?_, ?_, ?_⟩
      · intro hnone
        refine ⟨⟨u, now, files, nts, none, none, none, none,
          if a.dueDate < now then .late else .submitted, none⟩, ?_, ?_⟩
        · show (a.submissions ++ [_]).find? _ = _
          rw [List.find?_append]
          rw [findSub] at hnone
          rw [hnone, Option.none_or]
          exact List.find?_cons_of_pos _ (by simp)
        · dsimp only
          split
          · exact Or.inr rfl
          · exact Or.inl rfl
      · intro s hs
        exfalso
        apply hany
        rw [findSub] at hs
        exact List.any_eq_true.mpr
          ⟨s, List.mem_of_find?_eq_some hs,
           List.find?_some (p := fun (sub : Submission) => sub.student == u) hs⟩
      · intro s hs _
        exact List.mem_append_left _ hs
  · intro h
    simp only [gradeSubmission] at h
    split at h
    · cases h
    split at h
    · cases h
    split at h
    case isTrue hnas => cases h
    case isFalse hnas =>
      rw [not_not] at hnas
      cases h
      refine ⟨?_, ?_, ?_⟩
      · rw [findSub, List.find?_isSome]
        rcases List.any_eq_true.mp hnas with ⟨x, hx, hpx⟩
        exact ⟨x, hx, hpx⟩
      · rcases List.any_eq_true.mp hnas with ⟨x, hx, hpx⟩
        rcases Option.isSome_iff_exists.mp
          ((List.find?_isSome
            (p := fun (sub : Submission) => sub.student == stu)).mpr
            ⟨x, hx, hpx⟩) with ⟨s, hs⟩
        refine ⟨gradeUpd marks fb grader.id gnow s, ?_, rfl⟩
        show (updateWhere _ _ a.submissions).find? _ = _
        rw [find?_updateWhere (fun sub => sub.student == stu)
          (gradeUpd marks fb grader.id gnow) (fun x hx => hx)]
        rw [hs]
        rfl
      · intro s hs hne
        exact mem_updateWhere_of_neg hs (by simp [hne])

/-- C1 (witness): the transition theorem applied to the concrete first
submission of student 2 on `exAssignment`. -/
theorem submission_status_transitions_witness :
    ∃ s, findSub exA1 2 = some s ∧
      (s.status = SubStatus.submitted ∨ s.status = SubStatus.late) := by
  have h := (submission_status_transitions exAssignment exBatch 2 50 ["f1"] "first"
    exTeacher 2 7 "good" 55 exA1 exA2).1 rfl
  exact h.1 rfl

/-- C2: when the assignment disallows late submission and `now` is
strictly past `dueDate`, submit returns a 400 error and leaves the
assignment — its submissions collection in particular — unchanged; when
late submission is allowed, a first submission past `dueDate` succeeds
and is recorded with status `late` (instead of `submitted`). -/
theorem late_submission_policy
    (a : Assignment) (b : Batch) (u : Id) (now : Nat) (files : List String)
    (nts : String)
    (hactive : a.isActive = true) (henr : u ∈ b.students)
    (hlate : a.dueDate < now) :
    (a.allowLateSubmission = false →
       submitAssignment a b u now files nts =
         .error ⟨"Late submissions are not allowed for this assignment", 400⟩ ∧
       submitResult a b u now files nts = a) ∧
    (a.allowLateSubmission = true → findSub a u = none →
       ∃ a', submitAssignment a b u now files nts = .ok a' ∧
         ∃ s, findSub a' u = some s ∧ s.status = SubStatus.late) := by
  constructor
  · intro hallow
    have herr : submitAssignment a b u now files nts =
        .error ⟨"Late submissions are not allowed for this assignment", 400⟩ := by
      simp only [submitAssignment]
      rw [if_neg (by simp [hactive]), if_neg (by simp [henr]),
        if_pos ⟨hlate, by simp [hallow]⟩]
    exact ⟨herr, by simp [submitResult, herr]⟩
  · intro hallow hnone
    have hany : (a.submissions.any fun sub => sub.student == u) = false := by
      rw [List.any_eq_false]
      rw [findSub, List.find?_eq_none] at hnone
      exact hnone
    refine ⟨{ a with submissions := a.submissions ++
        [⟨u, now, files, nts, none, none, none, none,
          if a.dueDate < now then .late else .submitted, none⟩] }, ?_, ?_⟩
    · simp only [submitAssignment]
      rw [if_neg (by simp [hactive]), if_neg (by simp [henr]),
        if_neg (by simp [hallow]), if_neg (by simp [hany])]
    · refine ⟨⟨u, now, files, nts, none, none, none, none,
        if a.dueDate < now then .late else .submitted, none⟩, ?_, ?_⟩
      · show (a.submissions ++ [_]).find? _ = _
        rw [List.find?_append]
        rw [findSub] at hnone
        rw [hnone, Option.none_or]
        exact List.find?_cons_of_pos _ (by simp)
      · exact if_pos hlate

/-- C2 (witness): student 2 submitting at time 150 (past the due date
100) is rejected with a 400 error on `exAssignment` and leaves it
unchanged, while on `exLateOk` (late submission allowed) it succeeds
with status `late`. -/
theorem late_submission_policy_witness :
    (submitAssignment exAssignment exBatch 2 150 ["f"] "n" =
       .error ⟨"Late submissions are not allowed for this assignment", 400⟩ ∧
     submitResult exAssignment exBatch 2 150 ["f"] "n" = exAssignment) ∧
    (∃ a', submitAssignment exLateOk exBatch 2 150 ["f"] "n" = .ok a' ∧
       ∃ s, findSub a' 2 = some s ∧ s.status = SubStatus.late) := by
  constructor
  · exact (late_submission_policy exAssignment exBatch 2 150 ["f"] "n"
      rfl (by decide) (by decide)).1 rfl
  · exact (late_submission_policy exLateOk exBatch 2 150 ["f"] "n"
      rfl (by decide) (by decide)).2 rfl rfl

/-- C3: the grading controller performs no range check against
`totalMarks` — grading student 2 on `exA1` (an assignment with
`totalMarks = 10`) with 11 marks succeeds, stores the out-of-range
mark and marks the submission `graded`, instead of rejecting it. -/
theorem gradeSubmission_accepts_marks_above_total :
    exA1.totalMarks = 10 ∧
    ((gradeSubmission exA1 exBatch exTeacher 2 11 "good" 70).toOption.bind
        (fun a' => findSub a' 2)).map (fun s => (s.marksObtained, s.status)) =
      some (some 11, SubStatus.graded) := by
  decide

/-- A strict bound on the filtered length when some element is dropped. -/
theorem length_filter_lt_of_mem {p : α → Bool} {l : List α} {x : α}
    (hx : x ∈ l) (hpx : p x = false) : (l.filter p).length < l.length := by
  induction l with
  | nil => simp at hx
  | cons y ys ih =>
    rcases List.mem_cons.mp hx with rfl | hmem
    · rw [List.filter_cons_of_neg (by simp [hpx])]
      exact Nat.lt_succ_of_le (List.length_filter_le _ _)
    · by_cases hpy : p y = true
      · rw [List.filter_cons_of_pos hpy]
        simp only [List.length_cons]
        exact Nat.succ_lt_succ (ih hmem)
      · simp only [Bool.not_eq_true] at hpy
        rw [List.filter_cons_of_neg (by simp [hpy])]
        exact Nat.lt_succ_of_lt (ih hmem)

/-- Roster calls never change a batch's capacity. -/
theorem applyBatchOp_maxStudents (b : Batch) (op : BatchOp) :
    (applyBatchOp b op).maxStudents = b.maxStudents := by
  cases op with
  | add s =>
    simp only [applyBatchOp, addStudentToBatch]
    by_cases h1 : s ∈ b.students
    · rw [if_pos h1]; rfl
    · rw [if_neg h1]
      by_cases h2 : b.maxStudents ≤ b.students.length
      · rw [if_pos h2]; rfl
      · rw [if_neg h2]; rfl
  | remove s =>
    simp only [applyBatchOp, removeStudentFromBatch]
    by_cases h1 : s ∈ b.students
    · rw [if_pos h1]; rfl
    · rw [if_neg h1]; rfl

/-- One roster call preserves a duplicate-free roster within capacity. -/
theorem applyBatchOp_invariant {b : Batch} (op : BatchOp)
    (hnd : b.students.Nodup) (hlen : b.students.length ≤ b.maxStudents) :
    (applyBatchOp b op).students.Nodup ∧
    (applyBatchOp b op).students.length ≤ (applyBatchOp b op).maxStudents := by
  rw [applyBatchOp_maxStudents]
  cases op with
  | add s =>
    simp only [applyBatchOp, addStudentToBatch]
    by_cases h1 : s ∈ b.students
    · rw [if_pos h1]; exact ⟨hnd, hlen⟩
    · rw [if_neg h1]
      by_cases h2 : b.maxStudents ≤ b.students.length
      · rw [if_pos h2]; exact ⟨hnd, hlen⟩
      · rw [if_neg h2]
        refine ⟨?_, ?_⟩
        · rw [← List.concat_eq_append]
          exact List.Nodup.concat h1 hnd
        · show (b.students ++ [s]).length ≤ b.maxStudents
          simp only [List.length_append, List.length_cons, List.length_nil]
          omega
  | remove s =>
    simp only [applyBatchOp, removeStudentFromBatch]
    by_cases h1 : s ∈ b.students
    · rw [if_pos h1]
      exact ⟨hnd.filter _, le_trans (List.length_filter_le _ _) hlen⟩
    · rw [if_neg h1]; exact ⟨hnd, hlen⟩

/-- Any sequence of roster calls preserves a duplicate-free roster
within capacity. -/
theorem runBatchOps_invariant (ops : List BatchOp) : ∀ b : Batch,
    b.students.Nodup → b.students.length ≤ b.maxStudents →
    (runBatchOps b ops).students.Nodup ∧
    (runBatchOps b ops).students.length ≤ (runBatchOps b ops).maxStudents := by
  induction ops with
  | nil => intro b h1 h2; exact ⟨h1, h2⟩
  | cons op rest ih =>
    intro b h1 h2
    have step := applyBatchOp_invariant (b := b) op h1 h2
    have hmax := applyBatchOp_maxStudents b op
    exact ih (applyBatchOp b op) step.1 (hmax ▸ step.2)

/-- C4: starting from a duplicate-free roster within capacity, any
sequence of add-student / remove-student calls keeps the roster
duplicate-free and within `maxStudents`; adding an enrolled student is
rejected with 400, adding to a full roster is rejected with 400, and
after removing an enrolled student a subsequent add of a new student
succeeds. -/
theorem batch_roster_invariant (b : Batch) (ops : List BatchOp)
    (hnd : b.students.Nodup) (hlen : b.students.length ≤ b.maxStudents) :
    ((runBatchOps b ops).students.Nodup ∧
     (runBatchOps b ops).students.length ≤ (runBatchOps b ops).maxStudents) ∧
    (∀ s, s ∈ (runBatchOps b ops).students →
       addStudentToBatch (runBatchOps b ops) s =
         .error ⟨"Student already in this batch", 400⟩) ∧
    (∀ s, s ∉ (runBatchOps b ops).students →
       (runBatchOps b ops).maxStudents ≤ (runBatchOps b ops).students.length →
       addStudentToBatch (runBatchOps b ops) s = .error ⟨"Batch is full", 400⟩) ∧
    (∀ s t, s ∈ (runBatchOps b ops).students → t ∉ (runBatchOps b ops).students →
       ∃ b' b'', removeStudentFromBatch (runBatchOps b ops) s = .ok b' ∧
         addStudentToBatch b' t = .ok b'') := by
  have hinv := runBatchOps_invariant ops b hnd hlen
  refine ⟨hinv, ?_, ?_, ?_⟩
  · intro s hs
    simp only [addStudentToBatch]
    rw [if_pos hs]
  · intro s hs hfull
    simp only [addStudentToBatch]
    rw [if_neg hs, if_pos hfull]
  · intro s t hs ht
    have hrem : removeStudentFromBatch (runBatchOps b ops) s =
        .ok { runBatchOps b ops with
              students := (runBatchOps b ops).students.filter (fun i => i ≠ s) } := by
      simp only [removeStudentFromBatch]
      rw [if_pos hs]
    have htf : t ∉ ((runBatchOps b ops).students.filter (fun i => i ≠ s)) :=
      fun hmem => ht (List.mem_of_mem_filter hmem)
    have hlt : (((runBatchOps b ops).students.filter (fun i => i ≠ s)).length
        < (runBatchOps b ops).students.length) :=
      length_filter_lt_of_mem hs (by simp)
    have hadd : addStudentToBatch
        { runBatchOps b ops with
          students := (runBatchOps b ops).students.filter (fun i => i ≠ s) } t =
        .ok { runBatchOps b ops with
              students := (runBatchOps b ops).students.filter (fun i => i ≠ s) ++ [t] } := by
      simp only [addStudentToBatch]
      rw [if_neg htf, if_neg (by
        show ¬ ((runBatchOps b ops).maxStudents ≤ _)
        push_neg
        exact lt_of_lt_of_le hlt hinv.2)]
    exact ⟨_, _, hrem, hadd⟩

/-- The end-to-end scenario batch: capacity 1, empty roster. -/
def exSmallBatch : Batch :=
  { id := 9, teacher := 1, students := [], fee := 100, maxStudents := 1 }

/-- C4 (witness): on a capacity-1 batch with student 2 enrolled, adding
student 3 is rejected as full, and removing 2 then adding 3 succeeds. -/
theorem batch_roster_invariant_witness :
    (addStudentToBatch (runBatchOps exSmallBatch [.add 2]) 3 =
       .error ⟨"Batch is full", 400⟩) ∧
    (∃ b' b'', removeStudentFromBatch (runBatchOps exSmallBatch [.add 2]) 2 = .ok b' ∧
       addStudentToBatch b' 3 = .ok b'') := by
  have h := batch_roster_invariant exSmallBatch [.add 2] (by decide) (by decide)
  exact ⟨h.2.2.1 3 (by decide) (by decide), h.2.2.2 2 3 (by decide) (by decide)⟩

/-- An enrolled entry always appends exactly one written record to the
results list and leaves the error list alone. -/
theorem processAttendance_enrolled_result (batch : Batch) (date : Nat) (userId : Id)
    (records results : List Attendance) (errors : List String) (e : AttEntry)
    (he : e.student ∈ batch.students) :
    ∃ records' w, processAttendance batch date userId (records, results, errors) e =
      (records', results ++ [w], errors) := by
  simp only [processAttendance]
  rw [if_neg (not_not_intro he)]
  cases hfind : records.find? (sameAttKey e.student batch.id date) with
  | some existing => exact ⟨_, _, rfl⟩
  | none => exact ⟨_, _, rfl⟩

/-- A non-enrolled entry only appends its error message. -/
theorem processAttendance_not_enrolled (batch : Batch) (date : Nat) (userId : Id)
    (records results : List Attendance) (errors : List String) (e : AttEntry)
    (he : e.student ∉ batch.students) :
    processAttendance batch date userId (records, results, errors) e =
      (records, results,
       errors ++ ["Student " ++ toString e.student ++ " is not in this batch"]) := by
  simp only [processAttendance]
  rw [if_pos he]

/-- Counting the results and errors produced by the bulk-mark loop. -/
theorem foldl_processAttendance_counts (batch : Batch) (date : Nat) (userId : Id) :
    ∀ (entries : List AttEntry) (records results : List Attendance)
      (errors : List String),
    ((entries.foldl (processAttendance batch date userId)
        (records, results, errors)).2.1.length =
      results.length + entries.countP (fun e => decide (e.student ∈ batch.students))) ∧
    ((entries.foldl (processAttendance batch date userId)
        (records, results, errors)).2.2.length =
      errors.length + entries.countP (fun e => decide (e.student ∉ batch.students))) := by
  intro entries
  induction entries with
  | nil => intro records results errors; simp
  | cons e rest ih =>
    intro records results errors
    by_cases he : e.student ∈ batch.students
    · obtain ⟨records', w, hstep⟩ :=
        processAttendance_enrolled_result batch date userId records results errors e he
      rw [List.foldl_cons, hstep]
      have h := ih records' (results ++ [w]) errors
      refine ⟨?_, ?_⟩
      · rw [h.1]
        simp [List.countP_cons, he]
        omega
      · rw [h.2]
        simp [List.countP_cons, he]
    · rw [List.foldl_cons,
        processAttendance_not_enrolled batch date userId records results errors e he]
      have h := ih records results
        (errors ++ ["Student " ++ toString e.student ++ " is not in this batch"])
      refine ⟨?_, ?_⟩
      · rw [h.1]
        simp [List.countP_cons, he]
      · rw [h.2]
        simp [List.countP_cons, he]
        omega

/-- Some record with the given `(student, batch, date)` key is stored. -/
def hasAttKey (records : List Attendance) (stu batchId : Id) (date : Nat) : Prop :=
  ∃ r ∈ records, sameAttKey stu batchId date r = true

/-- One bulk-mark step never deletes a stored `(student, batch, date)`
key: it only appends records or rewrites status/notes/markedBy in
place. -/
theorem processAttendance_preserves_key (batch : Batch) (date : Nat) (userId : Id)
    (acc : List Attendance × List Attendance × List String) (e : AttEntry)
    (stu : Id) (h : hasAttKey acc.1 stu batch.id date) :
    hasAttKey (processAttendance batch date userId acc e).1 stu batch.id date := by
  obtain ⟨records, results, errors⟩ := acc
  simp only [processAttendance]
  by_cases he : e.student ∈ batch.students
  · rw [if_neg (not_not_intro he)]
    cases hfind : records.find? (sameAttKey e.student batch.id date) with
    | some existing =>
        exact exists_mem_updateWhere
          (p := sameAttKey e.student batch.id date)
          (f := fun r => { r with status := e.status, notes := e.notes.getD "", markedBy := userId })
          (P := fun r => sameAttKey stu batch.id date r = true)
          (fun x hx => hx) h
    | none =>
        rcases h with ⟨r, hr, hkey⟩
        exact ⟨r, List.mem_append_left _ hr, hkey⟩
  · rw [if_pos he]
    exact h

/-- Processing an enrolled entry leaves a record with that entry's
`(student, batch, date)` key in the store. -/
theorem processAttendance_establishes_key (batch : Batch) (date : Nat) (userId : Id)
    (records results : List Attendance) (errors : List String) (e : AttEntry)
    (he : e.student ∈ batch.students) :
    hasAttKey (processAttendance batch date userId (records, results, errors) e).1
      e.student batch.id date := by
  simp only [processAttendance]
  rw [if_neg (not_not_intro he)]
  cases hfind : records.find? (sameAttKey e.student batch.id date) with
  | some existing =>
      exact exists_mem_updateWhere
        (p := sameAttKey e.student batch.id date)
        (f := fun r => { r with status := e.status, notes := e.notes.getD "", markedBy := userId })
        (P := fun r => sameAttKey e.student batch.id date r = true)
        (fun x hx => hx)
        ⟨existing, List.mem_of_find?_eq_some hfind, List.find?_some hfind⟩
  | none =>
      refine ⟨_, List.mem_append_right _ (List.mem_singleton_self _), ?_⟩
      simp [sameAttKey]

/-- The whole bulk-mark loop preserves stored keys. -/
theorem foldl_processAttendance_preserves_key (batch : Batch) (date : Nat)
    (userId : Id) :
    ∀ (entries : List AttEntry) (acc : List Attendance × List Attendance × List String)
      (stu : Id), hasAttKey acc.1 stu batch.id date →
    hasAttKey ((entries.foldl (processAttendance batch date userId) acc)).1
      stu batch.id date := by
  intro entries
  induction entries with
  | nil => intro acc stu h; exact h
  | cons e rest ih =>
    intro acc stu h
    rw [List.foldl_cons]
    exact ih _ stu (processAttendance_preserves_key batch date userId acc e stu h)

/-- Every enrolled entry of the bulk request ends up with a stored
record: successes are not rolled back by later per-entry errors. -/
theorem foldl_processAttendance_no_rollback (batch : Batch) (date : Nat)
    (userId : Id) :
    ∀ (entries : List AttEntry) (acc : List Attendance × List Attendance × List String),
    ∀ e ∈ entries, e.student ∈ batch.students →
    hasAttKey ((entries.foldl (processAttendance batch date userId) acc)).1
      e.student batch.id date := by
  intro entries
  induction entries with
  | nil => intro acc e he; simp at he
  | cons e' rest ih =>
    intro acc e he henr
    rw [List.foldl_cons]
    rcases List.mem_cons.mp he with rfl | hmem
    · obtain ⟨records, results, errors⟩ := acc
      exact foldl_processAttendance_preserves_key batch date userId rest _ _
        (processAttendance_establishes_key batch date userId records results errors e henr)
    · exact ih _ e hmem henr

/-- Complementary enrollment counts sum to the number of entries. -/
theorem countP_enrolled_add_not (entries : List AttEntry) (l : List Id) :
    entries.countP (fun e => decide (e.student ∈ l)) +
      entries.countP (fun e => decide (e.student ∉ l)) = entries.length := by
  induction entries with
  | nil => rfl
  | cons e rest ih =>
    by_cases he : e.student ∈ l <;>
      simp [List.countP_cons, he, ← ih] <;> omega

/-- C5: a bulk attendance-mark request with N entries of which exactly K
reference students not enrolled in the batch upserts the other N−K
entries, returns N−K results and K error messages, rolls none of the
successes back, and reports success exactly when the error list is
empty. -/
theorem bulk_mark_partial_success (batch : Batch) (date : Nat) (userId : Id)
    (records : List Attendance) (entries : List AttEntry) :
    (markMultipleAttendances batch date userId records entries).data.length =
      entries.length -
        entries.countP (fun e => decide (e.student ∉ batch.students)) ∧
    (markMultipleAttendances batch date userId records entries).errors.length =
      entries.countP (fun e => decide (e.student ∉ batch.students)) ∧
    ((markMultipleAttendances batch date userId records entries).success = true ↔
      (markMultipleAttendances batch date userId records entries).errors = []) ∧
    (∀ e ∈ entries, e.student ∈ batch.students →
      ∃ r ∈ (markMultipleAttendances batch date userId records entries).records,
        r.student = e.student ∧ r.batch = batch.id ∧ r.date = date) := by
  have hc := foldl_processAttendance_counts batch date userId entries records [] []
  have hsum := countP_enrolled_add_not entries batch.students
  refine ⟨?_, ?_, ?_, ?_⟩
  · show (entries.foldl (processAttendance batch date userId)
      (records, [], [])).2.1.length = _
    rw [hc.1]
    simp only [List.length_nil, Nat.zero_add]
    omega
  · show (entries.foldl (processAttendance batch date userId)
      (records, [], [])).2.2.length = _
    rw [hc.2]
    simp only [List.length_nil, Nat.zero_add]
  · show ((entries.foldl (processAttendance batch date userId)
      (records, [], [])).2.2.isEmpty = true) ↔ _
    exact List.isEmpty_iff
  · intro e he henr
    rcases foldl_processAttendance_no_rollback batch date userId entries
      (records, [], []) e he henr with ⟨r, hr, hkey⟩
    refine ⟨r, hr, ?_⟩
    simp only [sameAttKey, Bool.and_eq_true, beq_iff_eq] at hkey
    exact ⟨hkey.1.1, hkey.1.2, hkey.2⟩

/-- C5 (witness): marking `[student 2 present, student 3 absent]` on
`exBatch` (roster `[2]`) yields one result, one error, and a stored
record for student 2. -/
theorem bulk_mark_partial_success_witness :
    (markMultipleAttendances exBatch 7 1 []
       [⟨2, .present, none⟩, ⟨3, .absent, none⟩]).data.length = 1 ∧
    (markMultipleAttendances exBatch 7 1 []
       [⟨2, .present, none⟩, ⟨3, .absent, none⟩]).errors.length = 1 ∧
    ∃ r ∈ (markMultipleAttendances exBatch 7 1 []
       [⟨2, .present, none⟩, ⟨3, .absent, none⟩]).records,
      r.student = 2 ∧ r.batch = exBatch.id ∧ r.date = 7 := by
  have h := bulk_mark_partial_success exBatch 7 1 []
    [⟨2, .present, none⟩, ⟨3, .absent, none⟩]
  exact ⟨h.1.trans (by decide), h.2.1.trans (by decide),
    h.2.2.2 ⟨2, .present, none⟩ (by decide) (by decide)⟩

/-- C6: when at most one payment exists per `(student, batch, month)`
triple, a create attempt against an existing triple is rejected with
400, any successful create preserves at-most-one-per-triple, and a
created payment whose request omitted `amount` carries the batch fee. -/
theorem payment_unique_and_default_amount (payments : List Payment)
    (batch : Batch) (user : User) (req : PaymentReq)
    (huniq : ∀ s b m, paymentKeyCount payments s b m ≤ 1) :
    ((∃ p ∈ payments, samePaymentKey req.student req.batch req.month p = true) →
       createPayment payments batch user req =
         .error ⟨"Payment already recorded for this student, batch, and month", 400⟩) ∧
    (∀ p ps', createPayment payments batch user req = .ok (p, ps') →
       ((∀ s b m, paymentKeyCount ps' s b m ≤ 1) ∧
        (req.amount = none → p.amount = batch.fee))) := by
  constructor
  · intro hex
    simp only [createPayment]
    rw [if_pos (List.any_eq_true.mpr hex)]
  · intro p ps' h
    simp only [createPayment] at h
    split at h
    case isTrue hdup => cases h
    case isFalse hdup =>
    split at h
    · cases h
    split at h
    · cases h
    case h_2 m hm =>
    split at h
    · cases h
    split at h
    · cases h
    case isFalse henum hneg =>
    rw [Except.ok.injEq, Prod.mk.injEq] at h
    obtain ⟨hp, hps⟩ := h
    subst hp
    subst hps
    constructor
    · intro s b mo
      rw [paymentKeyCount, List.filter_append, List.length_append]
      by_cases hkey : (samePaymentKey s b mo
          { student := req.student, batch := req.batch,
            amount := match req.amount with
              | none => batch.fee
              | some a => if a = 0 then batch.fee else a,
            paymentMethod := m, month := req.month,
            status := if req.paymentMethod = some "online" then req.status.getD .pending
              else PaymentStatus.completed,
            recordedBy := user.id } : Bool) = true
      · simp only [samePaymentKey, Bool.and_eq_true, beq_iff_eq] at hkey
        obtain ⟨⟨hs, hb⟩, hmo⟩ := hkey
        subst hs; subst hb; subst hmo
        have hflt : payments.filter
            (samePaymentKey req.student req.batch req.month) = [] := by
          rw [List.filter_eq_nil_iff]
          intro x hx hpx
          exact hdup (List.any_eq_true.mpr ⟨x, hx, hpx⟩)
        rw [hflt]
        simp only [List.length_nil, Nat.zero_add]
        exact le_trans (List.length_filter_le _ _) (by simp)
      · rw [List.filter_cons_of_neg hkey, List.filter_nil,
          List.length_nil, Nat.add_zero]
        exact huniq s b mo
    · intro hnone
      show (match req.amount with
        | none => batch.fee
        | some a => if a = 0 then batch.fee else a) = batch.fee
      rw [hnone]

/-- A concrete create-payment request for student 2 on `exBatch` with
no amount, method `cash`. -/
def exPayReq : PaymentReq :=
  { student := 2, batch := 0, month := "2024-01", amount := none,
    paymentMethod := some "cash", status := none }

/-- C6 (witness): creating `exPayReq` on an empty payment ledger
succeeds, keeps the ledger at-most-one-per-triple, and records the
batch fee 500 as the amount. -/
theorem payment_unique_and_default_amount_witness :
    ∃ p ps', createPayment [] exBatch exTeacher exPayReq = .ok (p, ps') ∧
      (∀ s b m, paymentKeyCount ps' s b m ≤ 1) ∧ p.amount = exBatch.fee := by
  have h := (payment_unique_and_default_amount [] exBatch exTeacher exPayReq
    (by intro s b m; simp [paymentKeyCount])).2
  refine ⟨_, _, rfl, ?_, ?_⟩
  · exact (h _ _ rfl).1
  · exact (h _ _ rfl).2 rfl

/-- Looking a status bucket up in the grouped summary list yields that
status's count exactly when the status occurs in the underlying list. -/
theorem find?_status_map (l : List AttStatus) (matched : List Attendance)
    (st : AttStatus) :
    ((l.map (fun s => StatusCount.mk s (countStatus matched s))).find?
      (fun c => c.status == st)).map (fun c => c.count) =
    if st ∈ l then some (countStatus matched st) else none := by
  induction l with
  | nil => simp
  | cons s rest ih =>
    by_cases hs : s = st
    · subst hs
      rw [List.map_cons, List.find?_cons_of_pos _ (by simp)]
      simp
    · rw [List.map_cons, List.find?_cons_of_neg _ (by simp [hs]), ih]
      by_cases hmem : st ∈ rest
      · rw [if_pos hmem, if_pos (List.mem_cons.mpr (Or.inr hmem))]
      · rw [if_neg hmem, if_neg (by
          intro hc
          rcases List.mem_cons.mp hc with h | h
          · exact hs h.symm
          · exact hmem h)]

/-- The summed per-status counts of the grouped summary equal the number
of matched records. -/
theorem summarize_total (records : List Attendance) (stu bat : Id) :
    ((summarize records stu bat).map (fun c => c.count)).sum =
      (attendanceFor records stu bat).length := by
  unfold summarize
  rw [List.map_map]
  have hfun : ((fun c : StatusCount => c.count) ∘
      (fun s => StatusCount.mk s (countStatus (attendanceFor records stu bat) s))) =
      fun s => ((attendanceFor records stu bat).map (fun r => r.status)).count s := by
    funext s
    show countStatus (attendanceFor records stu bat) s = _
    rw [countStatus, ← List.countP_eq_length_filter, List.count_eq_countP,
      List.countP_map]
    rfl
  rw [hfun, List.sum_map_count_dedup_eq_length, List.length_map]

/-- The `present` bucket read out of the grouped summary (0 when the
bucket is missing) equals the direct count of `present` records. -/
theorem summarize_bucket (records : List Attendance) (stu bat : Id)
    (st : AttStatus) :
    (((summarize records stu bat).find? (fun c => c.status == st)).map
      (fun c => c.count)).getD 0 =
      countStatus (attendanceFor records stu bat) st := by
  unfold summarize
  rw [find?_status_map]
  by_cases hmem : st ∈ ((attendanceFor records stu bat).map (fun r => r.status)).dedup
  · rw [if_pos hmem]
    rfl
  · rw [if_neg hmem]
    rw [List.mem_dedup] at hmem
    have h0 : countStatus (attendanceFor records stu bat) st = 0 := by
      rw [countStatus, List.length_eq_zero, List.filter_eq_nil_iff]
      intro r hr hpr
      exact hmem (List.mem_map.mpr ⟨r, hr, by simpa using hpr⟩)
    simp [h0]

/-- The concrete attendance ledger of the spec's example: student 2 in
batch 0 with three `present` records and one `absent` record. -/
def exAttRecords : List Attendance :=
  [⟨2, 0, 1, .present, "", 1⟩, ⟨2, 0, 2, .present, "", 1⟩,
   ⟨2, 0, 3, .present, "", 1⟩, ⟨2, 0, 4, .absent, "", 1⟩]

/-- C7: the summary endpoint as shipped never returns a summary — every
call errors (404, 403, or, past both guards, the 500 from the missing
`mongoose` import), as the concrete teacher request for student 2 in
batch 0 shows; the percentage computation the handler's body spells out
— unreachable at runtime — would equal
`Math.round(present / total × 100)` over the student's records in the
batch, 75 on three `present` and one `absent` record, as the claim
expects. -/
theorem attendance_summary_unreachable :
    (∀ (batches : List Batch) (user : User) (studentId batchId : Id),
       ∃ e, getStudentAttendanceSummaryCtrl batches user studentId batchId =
         .error e) ∧
    (getStudentAttendanceSummaryCtrl [exBatch] exTeacher 2 0 =
       .error ⟨"mongoose is not defined", 500⟩) ∧
    (∀ (records : List Attendance) (studentId batchId : Id),
      (getStudentAttendanceSummary records studentId batchId).total =
        (attendanceFor records studentId batchId).length ∧
      (getStudentAttendanceSummary records studentId batchId).percentage =
        (if 0 < (attendanceFor records studentId batchId).length then
           jsRound ((countStatus (attendanceFor records studentId batchId) .present : ℚ) /
             ((attendanceFor records studentId batchId).length : ℚ) * 100)
         else 0)) ∧
    (getStudentAttendanceSummary exAttRecords 2 0).percentage = 75 := by
  refine ⟨?_, rfl, ?_, ?_⟩
  · intro batches user studentId batchId
    simp only [getStudentAttendanceSummaryCtrl]
    cases hfind : batches.find? (fun b => b.id == batchId) with
    | none => exact ⟨_, rfl⟩
    | some batch =>
      by_cases hauth : user.role = .student ∧ user.id ≠ studentId ∧
          user.id ≠ batch.teacher
      · exact ⟨_, if_pos hauth⟩
      · exact ⟨_, if_neg hauth⟩
  · intro records studentId batchId
    refine ⟨?_, ?_⟩
    · exact summarize_total records studentId batchId
    · simp only [getStudentAttendanceSummary]
      rw [summarize_total, summarize_bucket]
  · simp only [getStudentAttendanceSummary]
    rw [summarize_total, summarize_bucket]
    rw [show countStatus (attendanceFor exAttRecords 2 0) .present = 3 from by decide,
      show (attendanceFor exAttRecords 2 0).length = 4 from by decide]
    rw [if_pos (by norm_num)]
    norm_num [jsRound]

/-- C8: a successful batch delete removes every attendance, material and
assignment record referencing the batch: filtering any of the three
collections by the batch id afterwards yields nothing. -/
theorem deleteBatch_cascades (store : Store) (user : User) (batchId : Id)
    (s' : Store) (h : deleteBatch store user batchId = .ok s') :
    s'.attendances.filter (fun a => a.batch == batchId) = [] ∧
    s'.materials.filter (fun m => m.batch == batchId) = [] ∧
    s'.assignments.filter (fun a => a.batch == batchId) = [] := by
  simp only [deleteBatch] at h
  split at h
  · cases h
  split at h
  · cases h
  rw [Except.ok.injEq] at h
  subst h
  refine ⟨?_, ?_, ?_⟩ <;>
    · rw [List.filter_eq_nil_iff]
      intro x hx
      have hne := (List.mem_filter.mp hx).2
      simp only [decide_eq_true_eq] at hne
      simp [hne]

/-- A concrete store with records both in batch 0 and elsewhere. -/
def exStore : Store :=
  { batches := [exBatch]
    attendances := [⟨2, 0, 1, .present, "", 1⟩, ⟨2, 5, 1, .present, "", 1⟩]
    materials := [⟨100, 0⟩, ⟨101, 3⟩]
    assignments := [exAssignment] }

/-- C8 (witness): the teacher deleting batch 0 from `exStore` leaves no
attendance, material or assignment record referencing batch 0. -/
theorem deleteBatch_cascades_witness :
    ∃ s', deleteBatch exStore exTeacher 0 = .ok s' ∧
      (s'.attendances.filter (fun a => a.batch == 0) = [] ∧
       s'.materials.filter (fun m => m.batch == 0) = [] ∧
       s'.assignments.filter (fun a => a.batch == 0) = []) :=
  ⟨_, rfl, deleteBatch_cascades exStore exTeacher 0 _ rfl⟩

/-- C9: every successfully created payment has status `completed` — any
method other than `"online"` forces `completed`, and `"online"` is not
in the schema's method enum, so a request naming it is always
rejected. -/
theorem createPayment_status_completed (payments : List Payment)
    (batch : Batch) (user : User) (req : PaymentReq) :
    (∀ p ps', createPayment payments batch user req = .ok (p, ps') →
       p.status = PaymentStatus.completed) ∧
    (req.paymentMethod = some "online" →
       ∃ e, createPayment payments batch user req = .error e) := by
  constructor
  · intro p ps' h
    simp only [createPayment] at h
    split at h
    · cases h
    split at h
    · cases h
    split at h
    · cases h
    case h_2 m hm =>
    split at h
    case isTrue => cases h
    case isFalse henum =>
    split at h
    · cases h
    rw [Except.ok.injEq, Prod.mk.injEq] at h
    obtain ⟨hp, _⟩ := h
    subst hp
    show (if req.paymentMethod = some "online" then req.status.getD .pending
      else PaymentStatus.completed) = PaymentStatus.completed
    rw [if_neg]
    intro hon
    rw [hm, Option.some.injEq] at hon
    subst hon
    rw [not_not] at henum
    exact absurd henum (by decide)
  · intro hon
    simp only [createPayment]
    split
    · exact ⟨_, rfl⟩
    split
    · exact ⟨_, rfl⟩
    rw [hon]
    exact ⟨_, rfl⟩

/-- C9 (witness): creating the concrete cash payment `exPayReq`
succeeds with status `completed`. -/
theorem createPayment_status_completed_witness :
    ∃ p ps', createPayment [] exBatch exTeacher exPayReq = .ok (p, ps') ∧
      p.status = PaymentStatus.completed := by
  refine ⟨_, _, rfl, ?_⟩
  exact (createPayment_status_completed [] exBatch exTeacher exPayReq).1 _ _ rfl

/-- The record rewrite the bulk-mark update path performs on an existing
attendance record: new status, new notes, `markedBy` set to the
caller. -/
def bulkUpd (e : AttEntry) (callerId : Id) (r : Attendance) : Attendance :=
  { r with status := e.status, notes := e.notes.getD "", markedBy := callerId }

/-- C10: a bulk-mark entry that updates an existing attendance record
overwrites its `markedBy` with the bulk caller's id; consequently the
previous marker, unless admin, loses the authority to update or delete
the record, and the caller gains it. -/
theorem bulk_update_transfers_marker (batch : Batch) (date : Nat) (caller : User)
    (records results : List Attendance) (errors : List String) (e : AttEntry)
    (r : Attendance)
    (henr : e.student ∈ batch.students)
    (hfind : records.find? (sameAttKey e.student batch.id date) = some r) :
    (processAttendance batch date caller.id (records, results, errors) e).2.1 =
      results ++ [bulkUpd e caller.id r] ∧
    bulkUpd e caller.id r ∈
      (processAttendance batch date caller.id (records, results, errors) e).1 ∧
    (∀ (prev : User) (st : AttStatus) (nts : String),
       prev.id ≠ caller.id → prev.role ≠ .admin →
       updateAttendance (bulkUpd e caller.id r) prev st nts =
         .error ⟨"Not authorized to update this attendance record", 403⟩ ∧
       deleteAttendance (bulkUpd e caller.id r) prev =
         .error ⟨"Not authorized to delete this attendance record", 403⟩) ∧
    (∀ (c : User) (st : AttStatus) (nts : String), c.id = caller.id →
       ∃ a', updateAttendance (bulkUpd e caller.id r) c st nts = .ok a') := by
  refine ⟨?_, ?_, ?_, ?_⟩
  · simp only [processAttendance]
    rw [if_neg (not_not_intro henr), hfind]
    rfl
  · simp only [processAttendance]
    rw [if_neg (not_not_intro henr), hfind]
    exact mem_updateWhere_of_find? (f := bulkUpd e caller.id) hfind
  · intro prev st nts hne hrole
    constructor
    · simp only [updateAttendance]
      rw [if_pos ⟨fun hid => hne hid.symm, hrole⟩]
    · simp only [deleteAttendance]
      rw [if_pos ⟨fun hid => hne hid.symm, hrole⟩]
  · intro c st nts hc
    simp only [updateAttendance]
    rw [if_neg (fun hcon => hcon.1 hc.symm)]
    exact ⟨_, rfl⟩

/-- C10 (witness): teacher 1 bulk-updating the record student 2 / batch
0 / day 1 previously marked by user 5 rewrites `markedBy` to 1, locking
out non-admin user 5 and letting teacher 1 update it. -/
theorem bulk_update_transfers_marker_witness :
    (processAttendance exBatch 1 exTeacher.id
       ([⟨2, 0, 1, .present, "", 5⟩], [], []) ⟨2, .absent, none⟩).2.1 =
      [⟨2, 0, 1, .absent, "", 1⟩] ∧
    updateAttendance ⟨2, 0, 1, .absent, "", 1⟩ ⟨5, .teacher⟩ .present "x" =
      .error ⟨"Not authorized to update this attendance record", 403⟩ ∧
    ∃ a', updateAttendance ⟨2, 0, 1, .absent, "", 1⟩ exTeacher .present "x" =
      .ok a' := by
  have h := bulk_update_transfers_marker exBatch 1 exTeacher
    [⟨2, 0, 1, .present, "", 5⟩] [] [] ⟨2, .absent, none⟩ ⟨2, 0, 1, .present, "", 5⟩
    (by decide) (by decide)
  exact ⟨h.1, (h.2.2.1 ⟨5, .teacher⟩ .present "x" (by decide) (by decide)).1,
    h.2.2.2 exTeacher .present "x" rfl⟩

end Tuition
